import Mathlib

/-!
Verification of the Cloudflare D1 driver (`src/driver/sqlx_d1.rs`).

The SQL text is modelled as a list of bytes (`List Nat`), matching the Rust
code which scans `sql.as_bytes()`.  Byte constants: 39 = single quote,
34 = double quote, 45 = dash, 47 = slash, 42 = star, 59 = semicolon,
10 = newline.
-/

/-- The five lexical states of the splitter's scan loop. -/
inductive State where
  | Normal
  | SingleQuote
  | DoubleQuote
  | LineComment
  | BlockComment
deriving DecidableEq, Repr

/-- ASCII whitespace bytes, as removed by `str::trim` on ASCII input. -/
def isWsByte (b : Nat) : Bool :=
  b == 32 || b == 9 || b == 10 || b == 13 || b == 11 || b == 12

/-- Byte-level model of `str::trim`: drop whitespace from both ends. -/
def trimB (l : List Nat) : List Nat :=
  ((l.dropWhile isWsByte).reverse.dropWhile isWsByte).reverse

/-- Byte-level model of the Rust slice `&sql[a..b]`. -/
def sliceB (l : List Nat) (a b : Nat) : List Nat :=
  (l.drop a).take (b - a)

/-- The scan loop of `split_unprepared_sql`, with explicit fuel.  One unit of
fuel is spent per loop iteration; `none` models fuel exhaustion (the loop not
having terminated within the given number of iterations).  Returns the emitted
statements and the final `start` index when the loop exits. -/
def scanLoop (bytes : List Nat) : Nat → State → Nat → Nat → List (List Nat) →
    Option (List (List Nat) × Nat)
  | 0, _, start, i, out =>
      if i < bytes.length then none else some (out, start)
  | fuel + 1, st, start, i, out =>
      if i < bytes.length then
        match st with
        | State.Normal =>
            if bytes.getD i 0 = 39 then
              scanLoop bytes fuel State.SingleQuote start (i + 1) out
            else if bytes.getD i 0 = 34 then
              scanLoop bytes fuel State.DoubleQuote start (i + 1) out
            else if bytes.getD i 0 = 45 ∧ i + 1 < bytes.length ∧ bytes.getD (i + 1) 0 = 45 then
              scanLoop bytes fuel State.LineComment start (i + 2) out
            else if bytes.getD i 0 = 47 ∧ i + 1 < bytes.length ∧ bytes.getD (i + 1) 0 = 42 then
              scanLoop bytes fuel State.BlockComment start (i + 2) out
            else if bytes.getD i 0 = 59 then
              scanLoop bytes fuel State.Normal (i + 1) (i + 1)
                (if (trimB (sliceB bytes start i)).isEmpty then out
                 else out ++ [sliceB bytes start i])
            else
              scanLoop bytes fuel State.Normal start (i + 1) out
        | State.SingleQuote =>
            if bytes.getD i 0 = 39 then
              if i + 1 < bytes.length ∧ bytes.getD (i + 1) 0 = 39 then
                scanLoop bytes fuel State.SingleQuote start (i + 2) out
              else
                scanLoop bytes fuel State.Normal start (i + 1) out
            else
              scanLoop bytes fuel State.SingleQuote start (i + 1) out
        | State.DoubleQuote =>
            if bytes.getD i 0 = 34 then
              if i + 1 < bytes.length ∧ bytes.getD (i + 1) 0 = 34 then
                scanLoop bytes fuel State.DoubleQuote start (i + 2) out
              else
                scanLoop bytes fuel State.Normal start (i + 1) out
            else
              scanLoop bytes fuel State.DoubleQuote start (i + 1) out
        | State.LineComment =>
            if bytes.getD i 0 = 10 then
              scanLoop bytes fuel State.Normal start (i + 1) out
            else
              scanLoop bytes fuel State.LineComment start (i + 1) out
        | State.BlockComment =>
            if bytes.getD i 0 = 42 ∧ i + 1 < bytes.length ∧ bytes.getD (i + 1) 0 = 47 then
              scanLoop bytes fuel State.Normal start (i + 2) out
            else
              scanLoop bytes fuel State.BlockComment start (i + 1) out
      else some (out, start)

/-- `split_unprepared_sql` from the source: run the scan loop over the whole
input (fuel `bytes.length` always suffices, since each iteration advances the
index), then flush the non-blank tail. -/
def split_unprepared_sql (sql : List Nat) : List (List Nat) :=
  match scanLoop sql sql.length State.Normal 0 0 [] with
  | some (out, start) =>
      if (trimB (sql.drop start)).isEmpty then out else out ++ [sql.drop start]
  | none => []

/-- Instrumented scanner: the list of `(index, state)` pairs visited by the
scan loop, following exactly the same control flow as `scanLoop`. -/
def scanTrace (bytes : List Nat) : Nat → State → Nat → List (Nat × State)
  | 0, _, _ => []
  | fuel + 1, st, i =>
      if i < bytes.length then
        (i, st) ::
        (match st with
         | State.Normal =>
             if bytes.getD i 0 = 39 then
               scanTrace bytes fuel State.SingleQuote (i + 1)
             else if bytes.getD i 0 = 34 then
               scanTrace bytes fuel State.DoubleQuote (i + 1)
             else if bytes.getD i 0 = 45 ∧ i + 1 < bytes.length ∧ bytes.getD (i + 1) 0 = 45 then
               scanTrace bytes fuel State.LineComment (i + 2)
             else if bytes.getD i 0 = 47 ∧ i + 1 < bytes.length ∧ bytes.getD (i + 1) 0 = 42 then
               scanTrace bytes fuel State.BlockComment (i + 2)
             else if bytes.getD i 0 = 59 then
               scanTrace bytes fuel State.Normal (i + 1)
             else
               scanTrace bytes fuel State.Normal (i + 1)
         | State.SingleQuote =>
             if bytes.getD i 0 = 39 then
               if i + 1 < bytes.length ∧ bytes.getD (i + 1) 0 = 39 then
                 scanTrace bytes fuel State.SingleQuote (i + 2)
               else
                 scanTrace bytes fuel State.Normal (i + 1)
             else
               scanTrace bytes fuel State.SingleQuote (i + 1)
         | State.DoubleQuote =>
             if bytes.getD i 0 = 34 then
               if i + 1 < bytes.length ∧ bytes.getD (i + 1) 0 = 34 then
                 scanTrace bytes fuel State.DoubleQuote (i + 2)
               else
                 scanTrace bytes fuel State.Normal (i + 1)
             else
               scanTrace bytes fuel State.DoubleQuote (i + 1)
         | State.LineComment =>
             if bytes.getD i 0 = 10 then
               scanTrace bytes fuel State.Normal (i + 1)
             else
               scanTrace bytes fuel State.LineComment (i + 1)
         | State.BlockComment =>
             if bytes.getD i 0 = 42 ∧ i + 1 < bytes.length ∧ bytes.getD (i + 1) 0 = 47 then
               scanTrace bytes fuel State.Normal (i + 2)
             else
               scanTrace bytes fuel State.BlockComment (i + 1))
      else []

/-- A visited position is a structural split point when the scanner is in
`Normal` state there and the byte is a semicolon. -/
def tracePred (bytes : List Nat) (p : Nat × State) : Bool :=
  decide (p.2 = State.Normal) && decide (bytes.getD p.1 0 = 59)

/-- The structural split points reachable from state `st` at index `i`. -/
def traceSplits (bytes : List Nat) (fuel : Nat) (st : State) (i : Nat) : List Nat :=
  ((scanTrace bytes fuel st i).filter (tracePred bytes)).map Prod.fst

/-- The structural semicolon positions of a SQL input. -/
def splitPoints (sql : List Nat) : List Nat :=
  traceSplits sql sql.length State.Normal 0

/-- Cut the input at the given split positions (excluding the final tail),
starting a new segment one byte past each split position. -/
def cutSegs (bytes : List Nat) : Nat → List Nat → List (List Nat)
  | _, [] => []
  | start, p :: ps => sliceB bytes start p :: cutSegs bytes (p + 1) ps

/-- The start index of the tail segment after the given split positions. -/
def lastStart (start : Nat) : List Nat → Nat
  | [] => start
  | p :: ps => lastStart (p + 1) ps

/-- All semicolon-delimited segments of the input: the segments between
consecutive split positions, plus the tail after the last one. -/
def segsAll (bytes : List Nat) (start : Nat) (ps : List Nat) : List (List Nat) :=
  cutSegs bytes start ps ++ [bytes.drop (lastStart start ps)]

/-- The source's emission condition `!stmt.trim().is_empty()`. -/
def nbSeg (s : List Nat) : Bool := !(trimB s).isEmpty

/-- Bytes of the doubled-quote example input from the spec:
`SELECT 'it''s; fine'; SELECT 2;` (apostrophes written as byte 39). -/
def c4sql : List Nat :=
  [83, 69, 76, 69, 67, 84, 32, 39, 105, 116, 39, 39, 115, 59, 32, 102, 105, 110, 101, 39,
   59, 32, 83, 69, 76, 69, 67, 84, 32, 50, 59]

/-- Bytes of the first expected segment `SELECT 'it''s; fine'`. -/
def c4seg1 : List Nat :=
  [83, 69, 76, 69, 67, 84, 32, 39, 105, 116, 39, 39, 115, 59, 32, 102, 105, 110, 101, 39]

/-- Bytes of the second expected segment ` SELECT 2` (leading space kept). -/
def c4seg2 : List Nat :=
  [32, 83, 69, 76, 69, 67, 84, 32, 50]

/-- Model of `sea_orm::RuntimeErr` (the D1 driver only builds `Internal`). -/
inductive RuntimeErr where
  | Internal (msg : String)
deriving DecidableEq

/-- Model of the `DbErr` kinds the D1 driver produces. -/
inductive DbErr where
  | Exec (err : RuntimeErr)
  | Query (err : RuntimeErr)
  | Conn (err : RuntimeErr)
  | BackendNotSupported (db : String) (ctx : String)
deriving DecidableEq

/-- `d1_sqlx_error_to_exec_err`: wrap a backend error as an execution error.
The source stringifies the `sqlx::Error`; errors are modelled as strings. -/
def d1_sqlx_error_to_exec_err (e : String) : DbErr :=
  DbErr.Exec (RuntimeErr.Internal e)

/-- `d1_sqlx_error_to_query_err`: wrap a backend error as a query error. -/
def d1_sqlx_error_to_query_err (e : String) : DbErr :=
  DbErr.Query (RuntimeErr.Internal e)

/-- A SeaORM `Statement`: SQL text plus bound values (values kept opaque). -/
structure Statement where
  sql : List Nat
  values : List Nat
deriving DecidableEq

/-- Oracle for the D1 backend: deterministic state-transforming responses to
the backend calls the driver makes.  `σ` is the backend state, `R` the
query-result type, `Row` the row type; backend errors are strings.  `execRaw`
is `sqlx_d1::query(sql).execute`, `exec`/`fetchOptional`/`fetchAll` are the
prepared execute / fetch-optional / fetch-all calls. -/
structure D1Backend (σ R Row : Type) where
  execRaw : σ → List Nat → σ × Except String R
  exec : σ → Statement → σ × Except String R
  fetchOptional : σ → Statement → σ × Except String (Option Row)
  fetchAll : σ → Statement → σ × Except String (List Row)

/-- The `for stmt in stmts` loop of `d1_execute_unprepared`: execute segments
in order, remembering the last result; stop at the first failing segment,
mapping its error with `d1_sqlx_error_to_exec_err` (the source's
`map_err(..)?`). -/
def execLoop {σ R Row : Type} (be : D1Backend σ R Row) :
    σ → List (List Nat) → Option R → σ × Except DbErr (Option R)
  | s, [], last => (s, Except.ok last)
  | s, stmt :: rest, _last =>
      match be.execRaw s stmt with
      | (s', Except.ok r) => execLoop be s' rest (some r)
      | (s', Except.error e) => (s', Except.error (d1_sqlx_error_to_exec_err e))

/-- `d1_execute_unprepared` from the source: split the SQL; the fast path
executes the original text when the split yields at most one segment;
otherwise run the loop and unwrap the final `Option` with the internal
"empty SQL" error (the source's `last.ok_or_else`). -/
def d1_execute_unprepared {σ R Row : Type} (be : D1Backend σ R Row) (s : σ)
    (sql : List Nat) : σ × Except DbErr R :=
  if (split_unprepared_sql sql).length ≤ 1 then
    ((be.execRaw s sql).1, (be.execRaw s sql).2.mapError d1_sqlx_error_to_exec_err)
  else
    match execLoop be s (split_unprepared_sql sql) none with
    | (s', Except.ok none) => (s', Except.error (DbErr.Exec (RuntimeErr.Internal "empty SQL")))
    | (s', Except.ok (some r)) => (s', Except.ok r)
    | (s', Except.error e) => (s', Except.error e)

/-- Fold of backend states along a list of raw statements. -/
def stateAfter {σ R Row : Type} (be : D1Backend σ R Row) (s : σ)
    (l : List (List Nat)) : σ :=
  l.foldl (fun t stmt => (be.execRaw t stmt).1) s

/-- The backend call made for the `j`-th segment of `l`, starting from `s`. -/
def execAt {σ R Row : Type} (be : D1Backend σ R Row) (s : σ) (l : List (List Nat))
    (j : Nat) : σ × Except String R :=
  be.execRaw (stateAfter be s (l.take j)) (l.getD j [])

/-- Whether an `Except` value is a success. -/
def isOkE {ε α : Type} : Except ε α → Bool
  | Except.ok _ => true
  | Except.error _ => false

/-- The D1 connection wrapper: the underlying connection handle plus the
optional metric callback. -/
structure SqlxD1Connection (C : Type) where
  conn : C
  metric_callback : Option Unit

/-- Modelled from the spec: the Instrumentation Tap (`crate::metric::metric!`,
whose source is outside this repository snapshot) times the call and reports
(statement, success or failure) to the metric callback if one is registered,
without altering the returned value or error.  The returned list records the
callback invocations made. -/
def metricWrap {α β : Type} (cb : Option Unit) (stmt : Statement)
    (body : α × Except DbErr β) : (α × Except DbErr β) × List (Statement × Bool) :=
  (body,
    match cb with
    | some _ => [(stmt, isOkE body.2)]
    | none => [])

/-- `SqlxD1Connection::execute`: one prepared call, through the metric tap. -/
def SqlxD1Connection.execute {C σ R Row : Type} (c : SqlxD1Connection C)
    (be : D1Backend σ R Row) (s : σ) (stmt : Statement) :
    (σ × Except DbErr R) × List (Statement × Bool) :=
  metricWrap c.metric_callback stmt
    ((be.exec s stmt).1, (be.exec s stmt).2.mapError d1_sqlx_error_to_exec_err)

/-- `SqlxD1Connection::execute_unprepared`: delegates to
`d1_execute_unprepared`; the source does not wrap this path in the metric
tap. -/
def SqlxD1Connection.execute_unprepared {C σ R Row : Type} (_c : SqlxD1Connection C)
    (be : D1Backend σ R Row) (s : σ) (sql : List Nat) :
    (σ × Except DbErr R) × List (Statement × Bool) :=
  (d1_execute_unprepared be s sql, [])

/-- `SqlxD1Connection::query_one`: fetch-optional, through the metric tap. -/
def SqlxD1Connection.query_one {C σ R Row : Type} (c : SqlxD1Connection C)
    (be : D1Backend σ R Row) (s : σ) (stmt : Statement) :
    (σ × Except DbErr (Option Row)) × List (Statement × Bool) :=
  metricWrap c.metric_callback stmt
    ((be.fetchOptional s stmt).1,
      (be.fetchOptional s stmt).2.mapError d1_sqlx_error_to_query_err)

/-- `SqlxD1Connection::query_all`: fetch-all, through the metric tap. -/
def SqlxD1Connection.query_all {C σ R Row : Type} (c : SqlxD1Connection C)
    (be : D1Backend σ R Row) (s : σ) (stmt : Statement) :
    (σ × Except DbErr (List Row)) × List (Statement × Bool) :=
  metricWrap c.metric_callback stmt
    ((be.fetchAll s stmt).1, (be.fetchAll s stmt).2.mapError d1_sqlx_error_to_query_err)

/-- `SqlxD1Connection::stream`: D1 has no server-side cursor; the source
always returns `DbErr::BackendNotSupported`. -/
def SqlxD1Connection.stream {C : Type} (_c : SqlxD1Connection C)
    (_stmt : Statement) : Except DbErr Unit :=
  Except.error (DbErr.BackendNotSupported "D1" "QueryStream")

/-- Model of SeaORM isolation levels. -/
inductive IsolationLevel where
  | RepeatableRead
  | ReadCommitted
  | ReadUncommitted
  | Serializable
deriving DecidableEq

/-- Model of SeaORM access modes. -/
inductive AccessMode where
  | ReadOnly
  | ReadWrite
deriving DecidableEq

/-- Model of `TransactionError`. -/
inductive TransactionError (E : Type) where
  | Connection (err : DbErr)
  | Transaction (err : E)

/-- The transaction handle: a clone of the connection plus the callback. -/
structure DatabaseTransaction (C : Type) where
  conn : C
  metric_callback : Option Unit

/-- Modelled from the spec: `DatabaseTransaction::begin` (source outside this
repository snapshot) constructs an Open transaction handle over the given
connection clone; no backend-side BEGIN is issued and construction never
fails. -/
def DatabaseTransaction.new_d1 {C : Type} (conn : C) (cb : Option Unit) :
    Except DbErr (DatabaseTransaction C) :=
  Except.ok { conn := conn, metric_callback := cb }

/-- Modelled from the spec: `DatabaseTransaction::run` (source outside this
repository snapshot) runs the callback to completion and returns its result
verbatim; a callback error surfaces as `TransactionError.Transaction`. -/
def DatabaseTransaction.run {C E T : Type} (txn : DatabaseTransaction C)
    (callback : DatabaseTransaction C → Except E T) : Except (TransactionError E) T :=
  (callback txn).mapError TransactionError.Transaction

/-- The warning text the source logs when transaction configuration is
requested. -/
def d1TxnWarning : String :=
  "D1 does not support configuring transactions; settings will be ignored"

/-- The source's warn-if-configured guard, returning the logged warnings. -/
def warnIfConfigured (iso : Option IsolationLevel) (acc : Option AccessMode) :
    List String :=
  if iso.isSome || acc.isSome then [d1TxnWarning] else []

/-- `SqlxD1Connection::begin`: warn when configuration was requested, then
build a transaction over a clone of the same connection. -/
def SqlxD1Connection.begin {C : Type} (c : SqlxD1Connection C)
    (iso : Option IsolationLevel) (acc : Option AccessMode) :
    List String × Except DbErr (DatabaseTransaction C) :=
  (warnIfConfigured iso acc, DatabaseTransaction.new_d1 c.conn c.metric_callback)

/-- `SqlxD1Connection::transaction`: warn when configuration was requested,
build the transaction (failures becoming `TransactionError.Connection`), then
run the callback. -/
def SqlxD1Connection.transaction {C E T : Type} (c : SqlxD1Connection C)
    (callback : DatabaseTransaction C → Except E T)
    (iso : Option IsolationLevel) (acc : Option AccessMode) :
    List String × Except (TransactionError E) T :=
  (warnIfConfigured iso acc,
    match DatabaseTransaction.new_d1 c.conn c.metric_callback with
    | Except.error e => Except.error (TransactionError.Connection e)
    | Except.ok txn => txn.run callback)

/-- A concrete demonstration backend over `σ = Nat`: the raw statement `[66]`
(the byte of `B`) fails with message `boom`; everything else succeeds. -/
def demoBE : D1Backend Nat Nat Nat where
  execRaw := fun s stmt =>
    if stmt = [66] then (s + 10, Except.error "boom") else (s + 1, Except.ok s)
  exec := fun s _ => (s + 1, Except.ok s)
  fetchOptional := fun s _ => (s, Except.ok none)
  fetchAll := fun s _ => (s, Except.ok [])

theorem scanTrace_bounds (bytes : List Nat) :
    ∀ fuel st i j s, (j, s) ∈ scanTrace bytes fuel st i → i ≤ j ∧ j < bytes.length := by
  intro fuel
  induction fuel with
  | zero =>
      intro st i j s h
      simp [scanTrace] at h
  | succ fuel ih =>
      intro st i j s h
      by_cases hi : i < bytes.length
      · cases st <;>
          simp only [scanTrace, if_pos hi] at h <;>
          rcases List.mem_cons.mp h with h | h <;>
            first
            | (injection h with hj hs; omega)
            | ((repeat' split at h) <;>
                (obtain ⟨h1, h2⟩ := ih _ _ _ _ h; exact ⟨by omega, h2⟩))
      · cases st <;> simp only [scanTrace, if_neg hi] at h <;> cases h

theorem scanTrace_pairwise (bytes : List Nat) :
    ∀ fuel st i, (scanTrace bytes fuel st i).Pairwise (fun p q => p.1 < q.1) := by
  intro fuel
  induction fuel with
  | zero => intro st i; simp [scanTrace]
  | succ fuel ih =>
      intro st i
      by_cases hi : i < bytes.length
      · cases st <;>
          (simp only [scanTrace, if_pos hi]
           exact List.pairwise_cons.mpr
             ⟨by
                intro q hq
                obtain ⟨j, s⟩ := q
                show i < j
                repeat' split at hq
                all_goals obtain ⟨h1, h2⟩ := scanTrace_bounds bytes fuel _ _ _ _ hq
                all_goals omega,
              by
                repeat' split
                all_goals exact ih _ _⟩)
      · cases st <;> simp only [scanTrace, if_neg hi] <;> exact List.Pairwise.nil

theorem scanLoop_spec (bytes : List Nat) :
    ∀ fuel st start i out, bytes.length ≤ i + fuel →
      scanLoop bytes fuel st start i out =
        some (out ++ (cutSegs bytes start (traceSplits bytes fuel st i)).filter nbSeg,
              lastStart start (traceSplits bytes fuel st i)) := by
  intro fuel
  induction fuel with
  | zero =>
      intro st start i out h
      have hi : ¬ i < bytes.length := by omega
      simp [scanLoop, scanTrace, traceSplits, cutSegs, lastStart, hi]
  | succ fuel ih =>
      intro st start i out h
      by_cases hi : i < bytes.length
      case neg =>
        cases st <;> simp [scanLoop, scanTrace, traceSplits, cutSegs, lastStart, hi]
      case pos =>
      have hstep1 : bytes.length ≤ (i + 1) + fuel := by omega
      have hstep2 : bytes.length ≤ (i + 2) + fuel := by omega
      cases st
      case Normal =>
        by_cases c1 : bytes.getD i 0 = 39
        · have hp : tracePred bytes (i, State.Normal) = false := by
            show (decide (State.Normal = State.Normal) && decide (bytes.getD i 0 = 59)) = false
            rw [c1]
            decide
          have ht : traceSplits bytes (fuel + 1) State.Normal i =
              traceSplits bytes fuel State.SingleQuote (i + 1) := by
            simp only [traceSplits, scanTrace, if_pos hi, if_pos c1, List.filter_cons, hp]
            simp
          rw [ht, scanLoop]
          simp only [if_pos hi, if_pos c1]
          exact ih _ _ _ _ hstep1
        · by_cases c2 : bytes.getD i 0 = 34
          · have hp : tracePred bytes (i, State.Normal) = false := by
              show (decide (State.Normal = State.Normal) && decide (bytes.getD i 0 = 59)) = false
              rw [c2]
              decide
            have ht : traceSplits bytes (fuel + 1) State.Normal i =
                traceSplits bytes fuel State.DoubleQuote (i + 1) := by
              simp only [traceSplits, scanTrace, if_pos hi, if_neg c1, if_pos c2,
                List.filter_cons, hp]
              simp
            rw [ht, scanLoop]
            simp only [if_pos hi, if_neg c1, if_pos c2]
            exact ih _ _ _ _ hstep1
          · by_cases c3 : bytes.getD i 0 = 45 ∧ i + 1 < bytes.length ∧ bytes.getD (i + 1) 0 = 45
            · have hp : tracePred bytes (i, State.Normal) = false := by
                show (decide (State.Normal = State.Normal) && decide (bytes.getD i 0 = 59)) = false
                rw [c3.1]
                decide
              have ht : traceSplits bytes (fuel + 1) State.Normal i =
                  traceSplits bytes fuel State.LineComment (i + 2) := by
                simp only [traceSplits, scanTrace, if_pos hi, if_neg c1, if_neg c2, if_pos c3,
                  List.filter_cons, hp]
                simp
              rw [ht, scanLoop]
              simp only [if_pos hi, if_neg c1, if_neg c2, if_pos c3]
              exact ih _ _ _ _ hstep2
            · by_cases c4 : bytes.getD i 0 = 47 ∧ i + 1 < bytes.length ∧
                  bytes.getD (i + 1) 0 = 42
              · have hp : tracePred bytes (i, State.Normal) = false := by
                  show (decide (State.Normal = State.Normal) && decide (bytes.getD i 0 = 59)) = false
                  rw [c4.1]
                  decide
                have ht : traceSplits bytes (fuel + 1) State.Normal i =
                    traceSplits bytes fuel State.BlockComment (i + 2) := by
                  simp only [traceSplits, scanTrace, if_pos hi, if_neg c1, if_neg c2,
                    if_neg c3, if_pos c4, List.filter_cons, hp]
                  simp
                rw [ht, scanLoop]
                simp only [if_pos hi, if_neg c1, if_neg c2, if_neg c3, if_pos c4]
                exact ih _ _ _ _ hstep2
              · by_cases c5 : bytes.getD i 0 = 59
                · have hp : tracePred bytes (i, State.Normal) = true := by
                    show (decide (State.Normal = State.Normal) && decide (bytes.getD i 0 = 59)) = true
                    rw [c5]
                    decide
                  have ht : traceSplits bytes (fuel + 1) State.Normal i =
                      i :: traceSplits bytes fuel State.Normal (i + 1) := by
                    simp only [traceSplits, scanTrace, if_pos hi, if_neg c1, if_neg c2,
                      if_neg c3, if_neg c4, if_pos c5, List.filter_cons, hp]
                    simp
                  rw [ht, cutSegs, lastStart, List.filter_cons]
                  by_cases hemp : (trimB (sliceB bytes start i)).isEmpty
                  · have hnb : nbSeg (sliceB bytes start i) = false := by
                      simp [nbSeg, hemp]
                    rw [scanLoop]
                    simp only [if_pos hi, if_neg c1, if_neg c2, if_neg c3, if_neg c4,
                      if_pos c5, if_pos hemp, hnb]
                    simp only [Bool.false_eq_true, if_false]
                    exact ih _ _ _ _ hstep1
                  · have hnb : nbSeg (sliceB bytes start i) = true := by
                      simp [nbSeg, hemp]
                    rw [scanLoop]
                    simp only [if_pos hi, if_neg c1, if_neg c2, if_neg c3, if_neg c4,
                      if_pos c5, if_neg hemp, hnb]
                    rw [ih _ _ _ _ hstep1]
                    simp [List.append_assoc]
                · have hp : tracePred bytes (i, State.Normal) = false := by
                    show (decide (State.Normal = State.Normal) && decide (bytes.getD i 0 = 59)) = false
                    rw [decide_eq_false c5]
                    decide
                  have ht : traceSplits bytes (fuel + 1) State.Normal i =
                      traceSplits bytes fuel State.Normal (i + 1) := by
                    simp only [traceSplits, scanTrace, if_pos hi, if_neg c1, if_neg c2,
                      if_neg c3, if_neg c4, if_neg c5, List.filter_cons, hp]
                    simp
                  rw [ht, scanLoop]
                  simp only [if_pos hi, if_neg c1, if_neg c2, if_neg c3, if_neg c4, if_neg c5]
                  exact ih _ _ _ _ hstep1
      case SingleQuote =>
        have hp : tracePred bytes (i, State.SingleQuote) = false := rfl
        by_cases c1 : bytes.getD i 0 = 39
        · by_cases c2 : i + 1 < bytes.length ∧ bytes.getD (i + 1) 0 = 39
          · have ht : traceSplits bytes (fuel + 1) State.SingleQuote i =
                traceSplits bytes fuel State.SingleQuote (i + 2) := by
              simp only [traceSplits, scanTrace, if_pos hi, if_pos c1, if_pos c2,
                List.filter_cons, hp]
              simp
            rw [ht, scanLoop]
            simp only [if_pos hi, if_pos c1, if_pos c2]
            exact ih _ _ _ _ hstep2
          · have ht : traceSplits bytes (fuel + 1) State.SingleQuote i =
                traceSplits bytes fuel State.Normal (i + 1) := by
              simp only [traceSplits, scanTrace, if_pos hi, if_pos c1, if_neg c2,
                List.filter_cons, hp]
              simp
            rw [ht, scanLoop]
            simp only [if_pos hi, if_pos c1, if_neg c2]
            exact ih _ _ _ _ hstep1
        · have ht : traceSplits bytes (fuel + 1) State.SingleQuote i =
              traceSplits bytes fuel State.SingleQuote (i + 1) := by
            simp only [traceSplits, scanTrace, if_pos hi, if_neg c1, List.filter_cons, hp]
            simp
          rw [ht, scanLoop]
          simp only [if_pos hi, if_neg c1]
          exact ih _ _ _ _ hstep1
      case DoubleQuote =>
        have hp : tracePred bytes (i, State.DoubleQuote) = false := rfl
        by_cases c1 : bytes.getD i 0 = 34
        · by_cases c2 : i + 1 < bytes.length ∧ bytes.getD (i + 1) 0 = 34
          · have ht : traceSplits bytes (fuel + 1) State.DoubleQuote i =
                traceSplits bytes fuel State.DoubleQuote (i + 2) := by
              simp only [traceSplits, scanTrace, if_pos hi, if_pos c1, if_pos c2,
                List.filter_cons, hp]
              simp
            rw [ht, scanLoop]
            simp only [if_pos hi, if_pos c1, if_pos c2]
            exact ih _ _ _ _ hstep2
          · have ht : traceSplits bytes (fuel + 1) State.DoubleQuote i =
                traceSplits bytes fuel State.Normal (i + 1) := by
              simp only [traceSplits, scanTrace, if_pos hi, if_pos c1, if_neg c2,
                List.filter_cons, hp]
              simp
            rw [ht, scanLoop]
            simp only [if_pos hi, if_pos c1, if_neg c2]
            exact ih _ _ _ _ hstep1
        · have ht : traceSplits bytes (fuel + 1) State.DoubleQuote i =
              traceSplits bytes fuel State.DoubleQuote (i + 1) := by
            simp only [traceSplits, scanTrace, if_pos hi, if_neg c1, List.filter_cons, hp]
            simp
          rw [ht, scanLoop]
          simp only [if_pos hi, if_neg c1]
          exact ih _ _ _ _ hstep1
      case LineComment =>
        have hp : tracePred bytes (i, State.LineComment) = false := rfl
        by_cases c1 : bytes.getD i 0 = 10
        · have ht : traceSplits bytes (fuel + 1) State.LineComment i =
              traceSplits bytes fuel State.Normal (i + 1) := by
            simp only [traceSplits, scanTrace, if_pos hi, if_pos c1, List.filter_cons, hp]
            simp
          rw [ht, scanLoop]
          simp only [if_pos hi, if_pos c1]
          exact ih _ _ _ _ hstep1
        · have ht : traceSplits bytes (fuel + 1) State.LineComment i =
              traceSplits bytes fuel State.LineComment (i + 1) := by
            simp only [traceSplits, scanTrace, if_pos hi, if_neg c1, List.filter_cons, hp]
            simp
          rw [ht, scanLoop]
          simp only [if_pos hi, if_neg c1]
          exact ih _ _ _ _ hstep1
      case BlockComment =>
        have hp : tracePred bytes (i, State.BlockComment) = false := rfl
        by_cases c1 : bytes.getD i 0 = 42 ∧ i + 1 < bytes.length ∧ bytes.getD (i + 1) 0 = 47
        · have ht : traceSplits bytes (fuel + 1) State.BlockComment i =
              traceSplits bytes fuel State.Normal (i + 2) := by
            simp only [traceSplits, scanTrace, if_pos hi, if_pos c1, List.filter_cons, hp]
            simp
          rw [ht, scanLoop]
          simp only [if_pos hi, if_pos c1]
          exact ih _ _ _ _ hstep2
        · have ht : traceSplits bytes (fuel + 1) State.BlockComment i =
              traceSplits bytes fuel State.BlockComment (i + 1) := by
            simp only [traceSplits, scanTrace, if_pos hi, if_neg c1, List.filter_cons, hp]
            simp
          rw [ht, scanLoop]
          simp only [if_pos hi, if_neg c1]
          exact ih _ _ _ _ hstep1

theorem pairwise_fst_mem_unique {β : Type} :
    ∀ (l : List (Nat × β)), l.Pairwise (fun p q => p.1 < q.1) →
      ∀ (j : Nat) (s1 s2 : β), (j, s1) ∈ l → (j, s2) ∈ l → s1 = s2 := by
  intro l
  induction l with
  | nil =>
      intro _ j s1 s2 h1 _
      cases h1
  | cons p t iht =>
      intro hp j s1 s2 h1 h2
      obtain ⟨hrel, hpt⟩ := List.pairwise_cons.mp hp
      rcases List.mem_cons.mp h1 with h1 | h1 <;> rcases List.mem_cons.mp h2 with h2 | h2
      · rw [← h1] at h2
        injection h2 with ha hb
        exact hb.symm
      · have hlt := hrel _ h2
        rw [← h1] at hlt
        simp at hlt
      · have hlt := hrel _ h1
        rw [← h2] at hlt
        simp at hlt
      · exact iht hpt j s1 s2 h1 h2

theorem getD_mem_of_lt {l : List Nat} {i : Nat} (h : i < l.length) : l.getD i 0 ∈ l := by
  rw [List.getD_eq_getElem l 0 h]
  exact List.getElem_mem h

theorem split_eq_filter_segsAll (sql : List Nat) :
    split_unprepared_sql sql = (segsAll sql 0 (splitPoints sql)).filter nbSeg := by
  have hmain := scanLoop_spec sql sql.length State.Normal 0 0 [] (by omega)
  rw [split_unprepared_sql, hmain]
  simp only [segsAll, splitPoints, List.filter_append, List.nil_append]
  by_cases hemp :
      (trimB (sql.drop (lastStart 0 (traceSplits sql sql.length State.Normal 0)))).isEmpty
  · have hnb :
        nbSeg (sql.drop (lastStart 0 (traceSplits sql sql.length State.Normal 0))) = false := by
      simp [nbSeg, hemp]
    rw [if_pos hemp]
    simp [hnb]
  · have hnb :
        nbSeg (sql.drop (lastStart 0 (traceSplits sql sql.length State.Normal 0))) = true := by
      simp [nbSeg, hemp]
    rw [if_neg hemp]
    simp [hnb]

theorem splitPoints_nil_of_no_semi {sql : List Nat} (h : 59 ∉ sql) : splitPoints sql = [] := by
  rw [splitPoints, traceSplits]
  have hfil : List.filter (tracePred sql) (scanTrace sql sql.length State.Normal 0) = [] := by
    rw [List.filter_eq_nil_iff]
    intro p hp
    obtain ⟨pj, ps⟩ := p
    obtain ⟨h1, h2⟩ := scanTrace_bounds sql sql.length State.Normal 0 pj ps hp
    intro hpred
    have hbyte : sql.getD pj 0 = 59 :=
      of_decide_eq_true ((Bool.and_eq_true _ _).mp hpred).2
    exact h (hbyte ▸ getD_mem_of_lt h2)
  rw [hfil]
  rfl

theorem split_no_semicolon (sql : List Nat) (h : 59 ∉ sql) :
    split_unprepared_sql sql = if (trimB sql).isEmpty then [] else [sql] := by
  rw [split_eq_filter_segsAll, splitPoints_nil_of_no_semi h]
  by_cases hemp : (trimB sql).isEmpty
  · simp [segsAll, cutSegs, lastStart, nbSeg, hemp]
  · simp [segsAll, cutSegs, lastStart, nbSeg, hemp]

/-- C1: the splitter's output equals the semicolon-delimited segments of the
input cut exactly at the structural split points, filtered to those non-empty
after trimming (so the segment count matches); and a semicolon visited by the
scanner strictly inside a single-quoted string, double-quoted identifier, line
comment or block comment (any non-Normal state) is never a split point. -/
theorem splitter_structural_correct (sql : List Nat) :
    split_unprepared_sql sql = (segsAll sql 0 (splitPoints sql)).filter nbSeg
    ∧ ∀ j st, (j, st) ∈ scanTrace sql sql.length State.Normal 0 →
        sql.getD j 0 = 59 → st ≠ State.Normal → j ∉ splitPoints sql := by
  refine ⟨split_eq_filter_segsAll sql, ?_⟩
  intro j st hmem hbyte hst hsp
  rw [splitPoints, traceSplits] at hsp
  obtain ⟨p, hp, hfst⟩ := List.mem_map.mp hsp
  obtain ⟨hptrace, hpred⟩ := List.mem_filter.mp hp
  obtain ⟨pj, ps⟩ := p
  have hps : ps = State.Normal :=
    of_decide_eq_true ((Bool.and_eq_true _ _).mp hpred).1
  have hpj : pj = j := hfst
  rw [hps, hpj] at hptrace
  exact hst (pairwise_fst_mem_unique _ (scanTrace_pairwise sql sql.length State.Normal 0)
    j st State.Normal hmem hptrace)

/-- Witness for C1: in the doubled-quote example the semicolon at index 13 is
visited inside the single-quoted string and indeed produces no split. -/
theorem splitter_structural_correct_witness : 13 ∉ splitPoints c4sql :=
  (splitter_structural_correct c4sql).2 13 State.SingleQuote (by decide) (by decide)
    (by decide)

/-- C2 counterexample: the comment-only input `--x` yields one segment (the raw
comment text), not zero segments. -/
theorem split_comment_only_counterexample : split_unprepared_sql [45, 45, 120] ≠ [] := by
  decide

/-- C2 amended: for whitespace-only input the splitter returns the empty
sequence; comment-only input instead yields the raw comment text as a segment. -/
theorem split_ws_only (sql : List Nat) (h : ∀ b ∈ sql, isWsByte b = true) :
    split_unprepared_sql sql = [] := by
  have hns : 59 ∉ sql := by
    intro hmem
    exact absurd (h 59 hmem) (by decide)
  have hdw : sql.dropWhile isWsByte = [] := List.dropWhile_eq_nil_iff.mpr h
  have hemp : (trimB sql).isEmpty = true := by
    rw [trimB, hdw]
    rfl
  rw [split_no_semicolon sql hns, if_pos hemp]

/-- Witness for C2: space-newline input splits into zero segments. -/
theorem split_ws_only_witness : split_unprepared_sql [32, 10] = [] :=
  split_ws_only [32, 10] (by decide)

/-- C3 counterexample: the input consisting of a space followed by `S` has no
semicolon and is non-blank, yet the splitter returns the untrimmed input, not
the trimmed one the claim promises. -/
theorem split_untrimmed_counterexample :
    59 ∉ [32, 83] ∧ (trimB [32, 83]).isEmpty = false ∧
      split_unprepared_sql [32, 83] ≠ [trimB [32, 83]] := by
  decide

/-- C3 amended: with zero semicolons the splitter returns exactly one segment
equal to the input as written (untrimmed; only checked non-blank via trim) when
the input is non-blank, and the empty sequence when the input is blank. -/
theorem split_zero_semicolons (sql : List Nat) (h : 59 ∉ sql) :
    split_unprepared_sql sql = if (trimB sql).isEmpty then [] else [sql] :=
  split_no_semicolon sql h

/-- Witness for C3 (amended): a one-byte non-blank input is returned whole. -/
theorem split_zero_semicolons_witness :
    split_unprepared_sql [83] = if (trimB [83]).isEmpty then [] else [[83]] :=
  split_zero_semicolons [83] (by decide)

/-- C4: doubled single quotes inside a single-quoted string do not terminate it:
the example input splits into exactly the two expected segments, the second
keeping its leading space. -/
theorem split_doubled_quote_example :
    split_unprepared_sql c4sql = [c4seg1, c4seg2] := by
  decide

/-- C10: the scan loop terminates on every input: each iteration advances the
byte index by at least one, so fuel equal to the remaining input length always
suffices and the loop never exhausts its fuel (never returns `none`).  Hence
`split_unprepared_sql`, which runs the loop with fuel `sql.length`, is total. -/
theorem scanLoop_total (bytes : List Nat) (fuel : Nat) (st : State) (start i : Nat)
    (out : List (List Nat)) (h : bytes.length ≤ i + fuel) :
    (scanLoop bytes fuel st start i out).isSome = true := by
  rw [scanLoop_spec bytes fuel st start i out h]
  rfl

/-- Witness for C10 at a concrete input. -/
theorem scanLoop_total_witness : (scanLoop [59] 1 State.Normal 0 0 []).isSome = true :=
  scanLoop_total [59] 1 State.Normal 0 0 [] (by decide)

theorem execAt_zero {σ R Row : Type} (be : D1Backend σ R Row) (s : σ)
    (stmt : List Nat) (rest : List (List Nat)) :
    execAt be s (stmt :: rest) 0 = be.execRaw s stmt := rfl

theorem execAt_cons {σ R Row : Type} (be : D1Backend σ R Row) (s : σ)
    (stmt : List Nat) (rest : List (List Nat)) (j : Nat) :
    execAt be s (stmt :: rest) (j + 1) = execAt be (be.execRaw s stmt).1 rest j := rfl

theorem stateAfter_cons {σ R Row : Type} (be : D1Backend σ R Row) (s : σ)
    (stmt : List Nat) (rest : List (List Nat)) :
    stateAfter be s (stmt :: rest) = stateAfter be (be.execRaw s stmt).1 rest := rfl

theorem execLoop_all_ok {σ R Row : Type} (be : D1Backend σ R Row) :
    ∀ (l : List (List Nat)) (s : σ) (r : R) (last : Option R),
      l ≠ [] →
      (∀ j, j + 1 < l.length → isOkE (execAt be s l j).2 = true) →
      (execAt be s l (l.length - 1)).2 = Except.ok r →
      execLoop be s l last = (stateAfter be s l, Except.ok (some r)) := by
  intro l
  induction l with
  | nil =>
      intro s r last hne _ _
      exact absurd rfl hne
  | cons stmt rest ihl =>
      intro s r last _ hall hlast
      rcases hx : be.execRaw s stmt with ⟨s', x⟩
      cases rest with
      | nil =>
          have hlast' : (be.execRaw s stmt).2 = Except.ok r := hlast
          rw [hx] at hlast'
          have hx2 : x = Except.ok r := by simpa using hlast'
          rw [execLoop, hx, hx2, stateAfter_cons, hx]
          rfl
      | cons stmt2 rest2 =>
          have h0 : isOkE (execAt be s (stmt :: stmt2 :: rest2) 0).2 = true := by
            apply hall
            simp
          rw [execAt_zero, hx] at h0
          cases x with
          | error e => exact absurd h0 (by simp [isOkE])
          | ok r0 =>
              rw [execLoop, hx]
              have hall' : ∀ j, j + 1 < (stmt2 :: rest2).length →
                  isOkE (execAt be s' (stmt2 :: rest2) j).2 = true := by
                intro j hj
                have := hall (j + 1) (by simpa using Nat.succ_lt_succ hj)
                rw [execAt_cons, hx] at this
                exact this
              have hlast' : (execAt be s' (stmt2 :: rest2)
                  ((stmt2 :: rest2).length - 1)).2 = Except.ok r := by
                have hidx : (stmt :: stmt2 :: rest2).length - 1 =
                    ((stmt2 :: rest2).length - 1) + 1 := by
                  simp
                rw [hidx, execAt_cons, hx] at hlast
                exact hlast
              rw [stateAfter_cons, hx]
              exact ihl s' r (some r0) (by simp) hall' hlast'

theorem execLoop_first_err {σ R Row : Type} (be : D1Backend σ R Row) :
    ∀ (l : List (List Nat)) (k : Nat) (s : σ) (e : String) (last : Option R),
      k < l.length →
      (∀ j, j < k → isOkE (execAt be s l j).2 = true) →
      (execAt be s l k).2 = Except.error e →
      execLoop be s l last =
        (stateAfter be s (l.take (k + 1)), Except.error (d1_sqlx_error_to_exec_err e)) := by
  intro l
  induction l with
  | nil =>
      intro k s e last hk _ _
      simp at hk
  | cons stmt rest ihl =>
      intro k s e last hk hall herr
      rcases hx : be.execRaw s stmt with ⟨s', x⟩
      cases k with
      | zero =>
          have herr' : (be.execRaw s stmt).2 = Except.error e := herr
          rw [hx] at herr'
          have hx2 : x = Except.error e := by simpa using herr'
          rw [execLoop, hx, hx2, List.take_succ_cons, List.take_zero, stateAfter_cons, hx]
          rfl
      | succ k =>
          have h0 : isOkE (execAt be s (stmt :: rest) 0).2 = true :=
            hall 0 (Nat.succ_pos k)
          rw [execAt_zero, hx] at h0
          cases x with
          | error e2 => exact absurd h0 (by simp [isOkE])
          | ok r0 =>
              rw [execLoop, hx]
              have hall' : ∀ j, j < k → isOkE (execAt be s' rest j).2 = true := by
                intro j hj
                have := hall (j + 1) (Nat.succ_lt_succ hj)
                rw [execAt_cons, hx] at this
                exact this
              have herr' : (execAt be s' rest k).2 = Except.error e := by
                rw [execAt_cons, hx] at herr
                exact herr
              rw [List.take_succ_cons, stateAfter_cons, hx]
              exact ihl k s' e (some r0) (by simpa using hk) hall' herr'

theorem execLoop_ne_ok_none {σ R Row : Type} (be : D1Backend σ R Row) :
    ∀ (l : List (List Nat)) (s : σ) (last : Option R),
      (l ≠ [] ∨ last.isSome = true) →
      (execLoop be s l last).2 ≠ Except.ok none := by
  intro l
  induction l with
  | nil =>
      intro s last h hcontra
      rw [execLoop] at hcontra
      have h2 : last = none := by simpa using hcontra
      rcases h with h | h
      · exact h rfl
      · rw [h2] at h
        simp at h
  | cons stmt rest ihl =>
      intro s last _ hcontra
      rw [execLoop] at hcontra
      rcases hx : be.execRaw s stmt with ⟨s', x⟩
      rw [hx] at hcontra
      cases x with
      | ok r0 =>
          exact ihl s' (some r0) (Or.inr rfl) hcontra
      | error e =>
          have himp : (Except.error (d1_sqlx_error_to_exec_err e) : Except DbErr (Option R)) =
              Except.ok none := hcontra
          exact absurd himp (by simp)

/-- C5: `execute_unprepared` splits the text; with at most one segment it
executes the original text directly; with several segments it executes them
sequentially in source order: when every segment succeeds the result is the
last segment's result with all effects applied, and when a segment fails
first, its mapped error is returned with the final state the fold over exactly
the executed prefix (earlier effects kept, later segments never executed). -/
theorem d1_execute_unprepared_contract {σ R Row : Type} (be : D1Backend σ R Row)
    (s : σ) (sql : List Nat) :
    ((split_unprepared_sql sql).length ≤ 1 →
        d1_execute_unprepared be s sql =
          ((be.execRaw s sql).1, (be.execRaw s sql).2.mapError d1_sqlx_error_to_exec_err))
    ∧ (2 ≤ (split_unprepared_sql sql).length →
        (∀ r : R,
            (∀ j, j + 1 < (split_unprepared_sql sql).length →
                isOkE (execAt be s (split_unprepared_sql sql) j).2 = true) →
            (execAt be s (split_unprepared_sql sql)
                ((split_unprepared_sql sql).length - 1)).2 = Except.ok r →
            d1_execute_unprepared be s sql =
              (stateAfter be s (split_unprepared_sql sql), Except.ok r))
        ∧ (∀ k e, k < (split_unprepared_sql sql).length →
            (∀ j, j < k → isOkE (execAt be s (split_unprepared_sql sql) j).2 = true) →
            (execAt be s (split_unprepared_sql sql) k).2 = Except.error e →
            d1_execute_unprepared be s sql =
              (stateAfter be s ((split_unprepared_sql sql).take (k + 1)),
               Except.error (d1_sqlx_error_to_exec_err e)))) := by
  refine ⟨?_, ?_⟩
  · intro hle
    rw [d1_execute_unprepared, if_pos hle]
  · intro h2
    have hgt : ¬ (split_unprepared_sql sql).length ≤ 1 := by omega
    have hne : split_unprepared_sql sql ≠ [] := by
      intro hnil
      rw [hnil] at h2
      simp at h2
    refine ⟨?_, ?_⟩
    · intro r hall hlast
      rw [d1_execute_unprepared, if_neg hgt,
        execLoop_all_ok be (split_unprepared_sql sql) s r none hne hall hlast]
    · intro k e hk hall herr
      rw [d1_execute_unprepared, if_neg hgt,
        execLoop_first_err be (split_unprepared_sql sql) k s e none hk hall herr]

/-- Witness for C5: on `A;B;C` against the demo backend the second segment
fails; the call returns its error and the final state reflects exactly the
first two backend executions. -/
theorem d1_execute_unprepared_contract_witness :
    d1_execute_unprepared demoBE 0 [65, 59, 66, 59, 67] =
      (stateAfter demoBE 0 ((split_unprepared_sql [65, 59, 66, 59, 67]).take 2),
       Except.error (d1_sqlx_error_to_exec_err "boom")) :=
  ((d1_execute_unprepared_contract demoBE 0 [65, 59, 66, 59, 67]).2 (by decide)).2
    1 "boom" (by decide) (by decide) (by rfl)

/-- C9: when the splitter yields zero segments the fast path submits the
original SQL text unchanged, and whenever the multi-statement loop runs (two
or more segments) it never yields `ok none`, so the internal "empty SQL"
error branch after the loop is unreachable for every input. -/
theorem d1_empty_sql_branch_unreachable {σ R Row : Type} (be : D1Backend σ R Row)
    (s : σ) (sql : List Nat) :
    (split_unprepared_sql sql = [] →
        d1_execute_unprepared be s sql =
          ((be.execRaw s sql).1,
            (be.execRaw s sql).2.mapError d1_sqlx_error_to_exec_err))
    ∧ (2 ≤ (split_unprepared_sql sql).length →
        (execLoop be s (split_unprepared_sql sql) none).2 ≠ Except.ok none) := by
  refine ⟨?_, ?_⟩
  · intro hnil
    rw [d1_execute_unprepared, if_pos (by rw [hnil]; simp)]
  · intro h2
    apply execLoop_ne_ok_none
    left
    intro hnil
    rw [hnil] at h2
    simp at h2

/-- Witness for C9: blank input has zero segments and takes the fast path. -/
theorem d1_empty_sql_branch_unreachable_witness :
    d1_execute_unprepared demoBE 0 [32] =
      ((demoBE.execRaw 0 [32]).1,
        (demoBE.execRaw 0 [32]).2.mapError d1_sqlx_error_to_exec_err) :=
  (d1_empty_sql_branch_unreachable demoBE 0 [32]).1 (by decide)

/-- C6 counterexample: with a metric callback registered, `execute_unprepared`
makes zero callback invocations — the source does not route this operation
through the metric tap — refuting the claim that every one of the four
operations reports (statement, outcome) to the registered callback. -/
theorem metric_tap_counterexample :
    (SqlxD1Connection.metric_callback
        (⟨0, some ()⟩ : SqlxD1Connection Nat)).isSome = true
    ∧ (SqlxD1Connection.execute_unprepared (⟨0, some ()⟩ : SqlxD1Connection Nat)
        demoBE 0 [83]).2 = [] :=
  ⟨rfl, rfl⟩

/-- C6 amended: `execute`, `query_one` and `query_all` invoke the registered
metric callback exactly once with the statement and its outcome (and never
invoke an unregistered one); `execute_unprepared` never invokes the callback;
and for all four operations the returned value or error is identical whether
or not a callback is registered. -/
theorem metric_tap_amended {C σ R Row : Type} (c : SqlxD1Connection C)
    (be : D1Backend σ R Row) (s : σ) (stmt : Statement) (sql : List Nat) :
    (c.metric_callback.isSome = true →
        (c.execute be s stmt).2 = [(stmt, isOkE (c.execute be s stmt).1.2)]
        ∧ (c.query_one be s stmt).2 = [(stmt, isOkE (c.query_one be s stmt).1.2)]
        ∧ (c.query_all be s stmt).2 = [(stmt, isOkE (c.query_all be s stmt).1.2)])
    ∧ (c.metric_callback.isSome = false →
        (c.execute be s stmt).2 = []
        ∧ (c.query_one be s stmt).2 = []
        ∧ (c.query_all be s stmt).2 = [])
    ∧ (c.execute_unprepared be s sql).2 = []
    ∧ (∀ cb cb' : Option Unit,
        (SqlxD1Connection.execute ⟨c.conn, cb⟩ be s stmt).1 =
          (SqlxD1Connection.execute ⟨c.conn, cb'⟩ be s stmt).1
        ∧ (SqlxD1Connection.execute_unprepared ⟨c.conn, cb⟩ be s sql).1 =
          (SqlxD1Connection.execute_unprepared ⟨c.conn, cb'⟩ be s sql).1
        ∧ (SqlxD1Connection.query_one ⟨c.conn, cb⟩ be s stmt).1 =
          (SqlxD1Connection.query_one ⟨c.conn, cb'⟩ be s stmt).1
        ∧ (SqlxD1Connection.query_all ⟨c.conn, cb⟩ be s stmt).1 =
          (SqlxD1Connection.query_all ⟨c.conn, cb'⟩ be s stmt).1) := by
  obtain ⟨conn, cb⟩ := c
  refine ⟨?_, ?_, rfl, ?_⟩
  · intro hcb
    cases cb with
    | none => simp at hcb
    | some u => exact ⟨rfl, rfl, rfl⟩
  · intro hcb
    cases cb with
    | some u => simp at hcb
    | none => exact ⟨rfl, rfl, rfl⟩
  · intro cb1 cb2
    exact ⟨rfl, rfl, rfl, rfl⟩

/-- Witness for C6 (amended): a registered callback observes the prepared
execute call on the demo backend. -/
theorem metric_tap_amended_witness :
    (SqlxD1Connection.execute (⟨0, some ()⟩ : SqlxD1Connection Nat) demoBE 0
        ⟨[83], []⟩).2 =
      [(⟨[83], []⟩,
        isOkE (SqlxD1Connection.execute (⟨0, some ()⟩ : SqlxD1Connection Nat) demoBE 0
          ⟨[83], []⟩).1.2)] :=
  ((metric_tap_amended (⟨0, some ()⟩ : SqlxD1Connection Nat) demoBE 0
      ⟨[83], []⟩ [83]).1 rfl).1

/-- C7: `stream` always fails with the backend-not-supported error regardless
of the statement, and never succeeds. -/
theorem stream_always_unsupported {C : Type} (c : SqlxD1Connection C)
    (stmt : Statement) :
    c.stream stmt = Except.error (DbErr.BackendNotSupported "D1" "QueryStream")
    ∧ ∀ u : Unit, c.stream stmt ≠ Except.ok u := by
  refine ⟨rfl, ?_⟩
  intro u h
  simp [SqlxD1Connection.stream] at h

/-- Witness for C7 at a concrete connection and statement. -/
theorem stream_always_unsupported_witness :
    SqlxD1Connection.stream (⟨0, none⟩ : SqlxD1Connection Nat) ⟨[83], []⟩ =
      Except.error (DbErr.BackendNotSupported "D1" "QueryStream") :=
  (stream_always_unsupported (⟨0, none⟩ : SqlxD1Connection Nat) ⟨[83], []⟩).1

/-- C8: `begin` and `transaction` never fail because of a requested isolation
level or access mode: `begin` always yields an open transaction over the same
underlying connection, `transaction` returns the callback's result (run
against a handle sharing that connection) verbatim — wrapping a callback error
as `TransactionError.Transaction` — and the warning is logged exactly when a
configuration was requested. -/
theorem transaction_config_ignored {C E T : Type} (c : SqlxD1Connection C)
    (callback : DatabaseTransaction C → Except E T)
    (iso : Option IsolationLevel) (acc : Option AccessMode) :
    (c.begin iso acc).2 =
        Except.ok { conn := c.conn, metric_callback := c.metric_callback }
    ∧ (c.transaction callback iso acc).2 =
        (callback { conn := c.conn, metric_callback := c.metric_callback }).mapError
          TransactionError.Transaction
    ∧ ((c.begin iso acc).1 ≠ [] ↔ (iso.isSome || acc.isSome) = true)
    ∧ (c.transaction callback iso acc).1 = (c.begin iso acc).1 := by
  refine ⟨rfl, rfl, ?_, rfl⟩
  by_cases h : (iso.isSome || acc.isSome) = true
  · simp [SqlxD1Connection.begin, warnIfConfigured, h, d1TxnWarning]
  · simp [SqlxD1Connection.begin, warnIfConfigured, h]
